import Mathlib

/-!
Verification development for the `DataContext` module of great_expectations
(`great_expectations/data_context/base.py`).

The embedding below is a shallow translation of the Python source.  Python
dictionaries are modelled as insertion-ordered association lists over string
keys (Python 3.7+ dicts preserve insertion order; `dict.update` replaces the
value of an existing key in place and appends new keys), Python sets of
identifier strings as insertion-ordered duplicate-free lists, and dynamic
Python values as the `PyObj` type.  Python exceptions are modelled with
`Except PyErr`; `logger.warning` calls are modelled as an appended list of
`Warn` records.
-/

/-- Python exceptions that the translated code can raise. -/
inductive PyErr where
  | keyError : String → PyErr
  | typeError : String → PyErr
  | valueError : String → PyErr
  | attributeError : String → PyErr
deriving DecidableEq

/-- The `logger.warning` calls appearing in the source, by call site. -/
inductive Warn where
  /-- base.py line 181: parameter for an unknown data asset config. -/
  | unknownAssetConfig : String → Warn
  /-- base.py line 202: invalid parameter urn (unrecognized structure). -/
  | invalidStructure : String → Warn
  /-- base.py line 204: invalid parameter urn (not enough parts). -/
  | notEnoughParts : String → Warn
  /-- base.py line 76: no data_asset_name found in validation results. -/
  | noDataAssetName : Warn
  /-- base.py lines 100 and 112: unrecognized key for parameter. -/
  | unrecognizedKey : String → Warn
deriving DecidableEq

/-- Dynamic Python values, as used by the module: JSON-like data plus the
string sets built by the compiler. -/
inductive PyObj where
  | none : PyObj
  | bool : Bool → PyObj
  | int : Int → PyObj
  | str : String → PyObj
  | list : List PyObj → PyObj
  | dict : List (String × PyObj) → PyObj
  | set : List String → PyObj

/-- Lookup in an insertion-ordered association list (Python dict read). -/
def assocLookup (es : List (String × α)) (k : String) : Option α :=
  match es with
  | [] => Option.none
  | (k', v) :: rest => if k' = k then some v else assocLookup rest k

/-- Python `d[k] = v` / `d.update({k: v})`: replace in place, else append. -/
def assocSet (es : List (String × α)) (k : String) (v : α) : List (String × α) :=
  match es with
  | [] => [(k, v)]
  | (k', v') :: rest => if k' = k then (k, v) :: rest else (k', v') :: assocSet rest k v

/-- Python `if k not in d: d[k] = v`: append the default only when absent. -/
def assocEnsure (es : List (String × α)) (k : String) (v : α) : List (String × α) :=
  match es with
  | [] => [(k, v)]
  | (k', v') :: rest => if k' = k then (k', v') :: rest else (k', v') :: assocEnsure rest k v

/-- In-place modification of the value stored under an existing key. -/
def assocModify (es : List (String × α)) (k : String) (f : α → α) : List (String × α) :=
  match es with
  | [] => []
  | (k', v') :: rest => if k' = k then (k', f v') :: rest else (k', v') :: assocModify rest k f

/-- Python `set.add`: insert a string if it is not already present. -/
def listInsert (l : List String) (x : String) : List String :=
  if l.contains x then l else l ++ [x]

/-- Splitting a string on the colon character, as Python `s.split(":")`. -/
def splitColonAux : List Char → List Char → List String
  | [], acc => [String.mk acc.reverse]
  | c :: rest, acc =>
    if c = ':' then String.mk acc.reverse :: splitColonAux rest []
    else splitColonAux rest (c :: acc)

/-- Python `s.split(":")`. -/
def splitColon (s : String) : List String := splitColonAux s.toList []

/-- Python `s.startswith(pre)`. -/
def strStartsWith (s pre : String) : Bool := pre.toList.isPrefixOf s.toList

/-- Python `needle in hay` for strings (substring test). -/
def containsChars (needle : List Char) : List Char → Bool
  | [] => needle.isEmpty
  | c :: rest => needle.isPrefixOf (c :: rest) || containsChars needle rest

/-- Segment `n` of a colon-split identifier, defaulting to the empty string. -/
def partAt (p : String) (n : Nat) : String := ((splitColon p).get? n).getD ""

/-- Python subscription `obj[k]` with a string key. -/
def PyObj.getItem : PyObj → String → Except PyErr PyObj
  | .dict es, k =>
    match assocLookup es k with
    | some v => Except.ok v
    | Option.none => Except.error (PyErr.keyError k)
  | .set _, _ => Except.error (PyErr.typeError "set object is not subscriptable")
  | .str _, _ => Except.error (PyErr.typeError "string indices must be integers")
  | .list _, _ => Except.error (PyErr.typeError "list indices must be integers")
  | _, _ => Except.error (PyErr.typeError "object is not subscriptable")

/-- Python membership `k in obj` for a string `k`: key lookup for dicts,
element membership for sets and lists, substring test for strings. -/
def PyObj.containsKey : PyObj → String → Except PyErr Bool
  | .dict es, k => Except.ok ((es.map Prod.fst).contains k)
  | .set xs, k => Except.ok (xs.contains k)
  | .list xs, k =>
    Except.ok (xs.any (fun v => match v with | .str s => s == k | _ => false))
  | .str s, k => Except.ok (containsChars k.toList s.toList)
  | _, _ => Except.error (PyErr.typeError "argument is not iterable")

/-- Leaf sets of the compiled index keyed by branch keyword (segment 8). -/
abbrev BranchSets := List (String × List String)

/-- One rule-kind entry of the compiled index: column name to branch sets. -/
abbrev ExpEntry := List (String × BranchSets)

/-- One data-asset entry: expectation (rule-kind) name to its entry. -/
abbrev ExpDict := List (String × ExpEntry)

/-- The `data_assets` level of the compiled index. -/
abbrev DataAssets := List (String × ExpDict)

/-- `self._compiled_parameters` (base.py lines 162-165). -/
structure CompiledParams where
  raw : List String
  data_assets : DataAssets

def emptyCompiled : CompiledParams := ⟨[], []⟩

/-- base.py lines 183-184: ensure a data-asset entry exists. -/
def daEnsure (da : DataAssets) (a : String) : DataAssets := assocEnsure da a []

/-- base.py lines 186-187: ensure a rule-kind entry under the asset. -/
def edEnsureAt (da : DataAssets) (a e : String) : DataAssets :=
  assocModify da a (fun ed => assocEnsure ed e [])

/-- base.py lines 195-196: ensure a column entry under the rule kind. -/
def colEnsureAt (da : DataAssets) (a e c : String) : DataAssets :=
  assocModify da a (fun ed => assocModify ed e (fun ee => assocEnsure ee c []))

/-- base.py lines 197-199: ensure the branch set under the column (line 197-198)
and add the parameter to it (line 199).  The two statements operate on the
first occurrence of the key, which is exactly an upsert. -/
def bsUpsert (bs : BranchSets) (b p : String) : BranchSets :=
  match bs with
  | [] => [(b, [p])]
  | (b', ids) :: rest =>
    if b' = b then (b', listInsert ids p) :: rest else (b', ids) :: bsUpsert rest b p

/-- base.py line 199 together with its two ensure steps, at full depth. -/
def leafInsertAt (da : DataAssets) (a e c b p : String) : DataAssets :=
  assocModify da a (fun ed => assocModify ed e (fun ee => assocModify ee c (fun bs => bsUpsert bs b p)))

/-- Does `data_assets[a][e]` have key `b`?  Used by the translation of base.py
line 190. -/
def hasBranchKey (da : DataAssets) (a e b : String) : Bool :=
  (((assocLookup ((assocLookup da a).getD []) e).getD []).map Prod.fst).contains b

/-- The recognized identifier start (base.py line 175). -/
def urnStart : String := "urn:great_expectations:validations:"

/-- base.py lines 176-204: process one `$PARAMETER` value whose text starts
with the recognized urn start.  The parameter is added to `raw` before the
`try` block; inside the block each `param_parts[i]` subscript can raise
`IndexError`, which is caught and logged as a warning (line 204), keeping all
mutations made so far.  For `param_parts[6]` in `["results", "details"]`
(note the source compares against the plural `"results"`): when the key is
absent, line 191 replaces the whole rule-kind dict with an empty `set()` and
line 192 immediately subscripts that set, a `TypeError`; when the key is
present its value is a dict built by the columns branch, and calling `.add`
on a dict is an `AttributeError`.  Neither is an `IndexError`, so either one
aborts the whole compilation. -/
def compileParam (known : List String) (st : CompiledParams × List Warn) (p : String) :
    Except PyErr (CompiledParams × List Warn) :=
  let cp : CompiledParams := { st.1 with raw := listInsert st.1.raw p }
  let ws := st.2
  let parts := splitColon p
  match parts.get? 3 with
  | Option.none => Except.ok (cp, ws ++ [Warn.notEnoughParts p])
  | some a =>
    let ws := if known.contains a then ws else ws ++ [Warn.unknownAssetConfig p]
    let cp : CompiledParams := { cp with data_assets := daEnsure cp.data_assets a }
    match parts.get? 5 with
    | Option.none => Except.ok (cp, ws ++ [Warn.notEnoughParts p])
    | some e =>
      let cp : CompiledParams := { cp with data_assets := edEnsureAt cp.data_assets a e }
      match parts.get? 6 with
      | Option.none => Except.ok (cp, ws ++ [Warn.notEnoughParts p])
      | some b =>
        if b = "results" ∨ b = "details" then
          Except.error (if hasBranchKey cp.data_assets a e b then
            PyErr.attributeError "dict object has no attribute add"
          else PyErr.typeError "set object is not subscriptable")
        else if b = "columns" then
          match parts.get? 7 with
          | Option.none => Except.ok (cp, ws ++ [Warn.notEnoughParts p])
          | some c =>
            let cp : CompiledParams := { cp with data_assets := colEnsureAt cp.data_assets a e c }
            match parts.get? 8 with
            | Option.none => Except.ok (cp, ws ++ [Warn.notEnoughParts p])
            | some b8 =>
              Except.ok ({ cp with data_assets := leafInsertAt cp.data_assets a e c b8 p }, ws)
        else Except.ok (cp, ws ++ [Warn.invalidStructure p])

/-- One expectation keyword argument (base.py lines 172-176): only dict
values carrying a `$PARAMETER` key are considered, and only when the
parameter text starts with the recognized urn start. -/
def compileKwarg (known : List String) (st : CompiledParams × List Warn) (v : PyObj) :
    Except PyErr (CompiledParams × List Warn) :=
  match v with
  | .dict es =>
    if (es.map Prod.fst).contains "$PARAMETER" then
      match assocLookup es "$PARAMETER" with
      | some (.str s) =>
        if strStartsWith s urnStart then compileParam known st s else Except.ok st
      | some _ => Except.error (PyErr.attributeError "startswith")
      | Option.none => Except.ok st
    else Except.ok st
  | _ => Except.ok st

/-- One expectation config: its keyword-argument dict. -/
structure Expectation where
  kwargs : List (String × PyObj)

/-- One data asset config document: its name (the file stem) and its
expectations list. -/
structure RuleSet where
  name : String
  expectations : List Expectation

/-- base.py line 172: iterate the kwargs dict values of one expectation. -/
def compileExpectation (known : List String) (st : CompiledParams × List Warn)
    (exp : Expectation) : Except PyErr (CompiledParams × List Warn) :=
  exp.kwargs.foldlM (fun s kv => compileKwarg known s kv.2) st

/-- base.py line 171: iterate the expectations of one config document. -/
def compileConfig (known : List String) (st : CompiledParams × List Warn)
    (rs : RuleSet) : Except PyErr (CompiledParams × List Warn) :=
  rs.expectations.foldlM (compileExpectation known) st

/-- base.py lines 161-204: full recompilation over every config document,
with `known_assets` the list of config names (line 167). -/
def compileAll (configs : List RuleSet) : Except PyErr (CompiledParams × List Warn) :=
  configs.foldlM (compileConfig (configs.map (fun rs => rs.name))) (emptyCompiled, [])

/-- The context state: the config documents in the configured directory plus
the mutable attributes set up by `connect` and `_compile`. -/
structure DataContext where
  configs : List RuleSet
  validation_params : List (String × PyObj)
  compiled : Bool
  compiled_parameters : CompiledParams
  log : List Warn

/-- base.py lines 23-37 (`connect`): fresh parameter store, not compiled. -/
def DataContext.connect (configs : List RuleSet) : DataContext :=
  ⟨configs, [], false, emptyCompiled, []⟩

def DataContext.warn (ctx : DataContext) (w : Warn) : DataContext :=
  { ctx with log := ctx.log ++ [w] }

/-- base.py lines 123-205 (`_compile`): full rebuild of the compiled
parameters from the config documents; on success sets `_compiled`. -/
def DataContext.compile (ctx : DataContext) : Except PyErr DataContext :=
  match compileAll ctx.configs with
  | Except.ok (cp, ws) =>
    Except.ok { ctx with compiled_parameters := cp, compiled := true, log := ctx.log ++ ws }
  | Except.error e => Except.error e

/-- base.py lines 114-115: `self.validation_params.update({key: value})`.
There is no run scoping; the flat dict is keyed by the identifier alone. -/
def DataContext.store_validation_param (ctx : DataContext) (key : String) (value : PyObj) :
    DataContext :=
  { ctx with validation_params := assocSet ctx.validation_params key value }

/-- base.py lines 117-121: the source subscripts the literal string "key"
rather than the `key` argument, returning None on the resulting KeyError. -/
def DataContext.get_validation_param (ctx : DataContext) (key : String) : PyObj :=
  match assocLookup ctx.validation_params "key" with
  | some v => v
  | Option.none => PyObj.none

/-- base.py lines 68-69: `self.validation_params[run_id]` when present,
otherwise an empty dict.  The `expectations_config` argument is unused. -/
def DataContext.bind_evaluation_parameters (ctx : DataContext) (run_id : String)
    (expectations_config : PyObj) : PyObj :=
  match assocLookup ctx.validation_params run_id with
  | some v => v
  | Option.none => PyObj.dict []

/-- base.py lines 93-100 and 105-112: the common inner loop body over one
desired parameter.  `desired_key` is the last colon segment (lines 94, 106).
The `result` branch fetches `result["result"][desired_key]`; the `details`
branch stores the whole `result["result"]["details"]` map (lines 98, 110);
anything else logs the unrecognized-key warning. -/
def processDesired (ctx : DataContext) (entry : PyObj) (type_key desired_param : String) :
    Except PyErr DataContext := do
  let desired_key := (splitColon desired_param).getLastD ""
  if type_key = "result" then
    let r ← entry.getItem "result"
    if (← r.containsKey desired_key) then
      let v ← r.getItem desired_key
      pure (ctx.store_validation_param desired_param v)
    else pure (ctx.warn (Warn.unrecognizedKey desired_param))
  else if type_key = "details" then
    let r ← entry.getItem "result"
    let d ← r.getItem "details"
    if (← d.containsKey desired_key) then
      pure (ctx.store_validation_param desired_param d)
    else pure (ctx.warn (Warn.unrecognizedKey desired_param))
  else pure (ctx.warn (Warn.unrecognizedKey desired_param))

/-- base.py lines 86-112: handling of one entry of `validation_results["results"]`.
Line 88 reads `self._compiled_parameters["data_assets"][data_asset_name]["columns"]`,
a lookup of the literal key "columns" at the asset level of the index (a
`KeyError` when no rule kind of that name exists).  Line 102 iterates the
asset dict directly, yielding its keys; tuple-unpacking a key string succeeds
only when it has exactly two characters, in which case the one-character
`type_key` matches neither "columns" nor "result" nor "details" and the
single one-character `desired_param` (the second character) falls through to
the warning branch; any other key length raises `ValueError`. -/
def registerEntry (ctx : DataContext) (data_asset_name : String) (entry : PyObj) :
    Except PyErr DataContext := do
  let ec ← entry.getItem "expectation_config"
  let et ← ec.getItem "expectation_type"
  let expDict := (assocLookup ctx.compiled_parameters.data_assets data_asset_name).getD []
  match et with
  | .str etype =>
    if (expDict.map Prod.fst).contains etype then do
      let kwargs ← ec.getItem "kwargs"
      let hasCol ← kwargs.containsKey "column"
      let ctx1 ←
        if hasCol then do
          let colObj ← kwargs.getItem "column"
          match assocLookup expDict "columns" with
          | Option.none => Except.error (PyErr.keyError "columns")
          | some colsNode =>
            match colObj with
            | .str column =>
              if (colsNode.map Prod.fst).contains column then
                let bs := (assocLookup colsNode column).getD []
                bs.foldlM (fun c tkdp =>
                  tkdp.2.foldlM (fun c2 dp => processDesired c2 entry tkdp.1 dp) c) ctx
              else pure ctx
            | .list _ | .dict _ | .set _ => Except.error (PyErr.typeError "unhashable type")
            | _ => pure ctx
        else pure ctx
      (expDict.map Prod.fst).foldlM (fun c k =>
        if k.length = 2 then
          pure (c.warn (Warn.unrecognizedKey (String.singleton (k.toList.getD 1 ' '))))
        else Except.error (PyErr.valueError "values to unpack")) ctx1
    else pure ctx
  | .list _ | .dict _ | .set _ => Except.error (PyErr.typeError "unhashable type")
  | _ => pure ctx

/-- base.py lines 71-112 (`register_validation_results`): compile lazily,
return with a warning when `meta` lacks `data_asset_name`, return silently
when the asset is not in the compiled index, otherwise process each entry of
`validation_results["results"]`.  The `run_id` argument is never consulted. -/
def DataContext.register_validation_results (ctx : DataContext) (run_id : String)
    (validation_results : PyObj) : Except PyErr DataContext := do
  let ctx ← if ctx.compiled then pure ctx else ctx.compile
  let meta ← validation_results.getItem "meta"
  let hasName ← meta.containsKey "data_asset_name"
  if hasName = false then
    pure (ctx.warn Warn.noDataAssetName)
  else do
    let nameObj ← meta.getItem "data_asset_name"
    match nameObj with
    | .str data_asset_name =>
      if (ctx.compiled_parameters.data_assets.map Prod.fst).contains data_asset_name then do
        let results ← validation_results.getItem "results"
        match results with
        | .list entries => entries.foldlM (fun c e => registerEntry c data_asset_name e) ctx
        | _ => Except.error (PyErr.typeError "object is not iterable")
      else pure ctx
    | .list _ | .dict _ | .set _ => Except.error (PyErr.typeError "unhashable type")
    | _ => pure ctx

/-! ### Occurrence counts, leaf access and the compile invariant

These definitions support the analysis of the compiled index: `daCount`
counts, over every leaf set of the `data_assets` structure, how many leaves
contain a given identifier; `leafGetDa` reads the leaf reachable by a
path of asset, rule kind, column and branch keyword; `wfColumns` recognizes
the identifiers that the compiler actually files into a leaf. -/
def assocCount (cnt : α → Nat) : List (String × α) → Nat
  | [] => 0
  | kv :: rest => cnt kv.2 + assocCount cnt rest

def bsCount (q : String) (bs : BranchSets) : Nat :=
  assocCount (fun ids => if ids.contains q then 1 else 0) bs

def eeCount (q : String) (ee : ExpEntry) : Nat := assocCount (bsCount q) ee

def edCount (q : String) (ed : ExpDict) : Nat := assocCount (eeCount q) ed

def daCount (q : String) (da : DataAssets) : Nat := assocCount (edCount q) da

def eeGet (ee : ExpEntry) (c b : String) : List String :=
  (assocLookup ((assocLookup ee c).getD []) b).getD []

def edGet (ed : ExpDict) (e c b : String) : List String :=
  eeGet ((assocLookup ed e).getD []) c b

def leafGetDa (da : DataAssets) (a e c b : String) : List String :=
  edGet ((assocLookup da a).getD []) e c b

def leafGet (cp : CompiledParams) (a e c b : String) : List String :=
  leafGetDa cp.data_assets a e c b

def wfColumns (p : String) : Bool :=
  ((splitColon p).get? 6 == some "columns") && ((splitColon p).get? 8).isSome

/-- The compile invariant: the occurrence count of every identifier among the
leaf sets is one when it is a well-formed columns identifier in `raw` and zero
otherwise, and every well-formed member of `raw` sits in the leaf reachable by
its own parsed segments. -/
def CompileInv (cp : CompiledParams) : Prop :=
  ∀ q : String,
    (daCount q cp.data_assets = if q ∈ cp.raw ∧ wfColumns q = true then 1 else 0) ∧
    (q ∈ cp.raw → wfColumns q = true →
      q ∈ leafGetDa cp.data_assets (partAt q 3) (partAt q 5) (partAt q 7) (partAt q 8))

/-! ### Concrete inputs used by the claim theorems -/

/-- C1: the reference identifier of the concrete scenario. -/
def c1urn : String := "urn:great_expectations:validations:orders:expectations:expect_column_values_to_be_between:result:min_value"

def c1cfg : RuleSet :=
  ⟨"orders", [⟨[("max_value", PyObj.dict [("$PARAMETER", PyObj.str c1urn)])]⟩]⟩

def c1ctx : DataContext := DataContext.connect [c1cfg]

def c1entry : PyObj := PyObj.dict [
  ("expectation_config", PyObj.dict [
    ("expectation_type", PyObj.str "expect_column_values_to_be_between"),
    ("kwargs", PyObj.dict [])]),
  ("result", PyObj.dict [("min_value", PyObj.int 5)]),
  ("success", PyObj.bool false)]

def c1vr : PyObj := PyObj.dict [
  ("meta", PyObj.dict [("data_asset_name", PyObj.str "orders")]),
  ("results", PyObj.list [c1entry])]

/-- C2: a non-column `result` identifier. -/
def c2urn : String := "urn:great_expectations:validations:orders:expectations:expect_column_values_to_be_between:result:min_value"

def c2cfg : RuleSet :=
  ⟨"orders", [⟨[("max_value", PyObj.dict [("$PARAMETER", PyObj.str c2urn)])]⟩]⟩

/-- C2: the index the code actually builds for `c2cfg`: the identifier ends up
in `raw` only, with an empty rule-kind entry and no leaf set. -/
def c2cp : CompiledParams :=
  ⟨[c2urn], [("orders", [("expect_column_values_to_be_between", [])])]⟩

/-- C2: a non-column `details` identifier. -/
def c2urnDetails : String := "urn:great_expectations:validations:orders:expectations:expect_column_values_to_be_between:details:mismatch"

def c2cfgDetails : RuleSet :=
  ⟨"orders", [⟨[("value_set", PyObj.dict [("$PARAMETER", PyObj.str c2urnDetails)])]⟩]⟩

/-- C3: a context whose store holds 7 under the identifier "parameter_a". -/
def c3ctx : DataContext :=
  (DataContext.connect []).store_validation_param "parameter_a" (PyObj.int 7)

/-- C5: a column-scoped identifier for the rule kind. -/
def c5urnCol : String := "urn:great_expectations:validations:orders:expectations:expect_column_values_to_be_between:columns:amount:result:min_value"

/-- C5: a non-column identifier for the same rule kind. -/
def c5urnFlat : String := "urn:great_expectations:validations:orders:expectations:expect_column_values_to_be_between:result:max_value"

def c5cfg : RuleSet := ⟨"orders", [⟨[
  ("min_value", PyObj.dict [("$PARAMETER", PyObj.str c5urnCol)]),
  ("max_value", PyObj.dict [("$PARAMETER", PyObj.str c5urnFlat)])]⟩]⟩

def c5ctx : DataContext := DataContext.connect [c5cfg]

def c5entry : PyObj := PyObj.dict [
  ("expectation_config", PyObj.dict [
    ("expectation_type", PyObj.str "expect_column_values_to_be_between"),
    ("kwargs", PyObj.dict [("column", PyObj.str "amount")])]),
  ("result", PyObj.dict [("min_value", PyObj.int 5), ("max_value", PyObj.int 7)])]

def c5vr : PyObj := PyObj.dict [
  ("meta", PyObj.dict [("data_asset_name", PyObj.str "orders")]),
  ("results", PyObj.list [c5entry])]

/-- C6: a non-column `details` identifier. -/
def c6urn : String := "urn:great_expectations:validations:inventory:expectations:expect_table_row_count_to_be_between:details:observed_value"

def c6cfg : RuleSet :=
  ⟨"inventory", [⟨[("min_value", PyObj.dict [("$PARAMETER", PyObj.str c6urn)])]⟩]⟩

def c6ctx : DataContext := DataContext.connect [c6cfg]

def c6vr : PyObj := PyObj.dict [
  ("meta", PyObj.dict [("data_asset_name", PyObj.str "inventory")]),
  ("results", PyObj.list [])]

/-- C7: a malformed identifier (too few segments) with the recognized start. -/
def c7urn : String := "urn:great_expectations:validations:orders"

def c7cfg : RuleSet :=
  ⟨"orders", [⟨[("min_value", PyObj.dict [("$PARAMETER", PyObj.str c7urn)])]⟩]⟩

/-- C7: the index compiled from `c7cfg`: the malformed identifier is in `raw`
and an empty asset entry exists, but no leaf contains it. -/
def c7cp : CompiledParams := ⟨[c7urn], [("orders", [])]⟩

/-- C7 witness: a well-formed column-scoped identifier. -/
def c7urn2 : String := "urn:great_expectations:validations:stock:expectations:expect_column_values_to_be_unique:columns:sku:result:unexpected_count"

def c7cfg2 : RuleSet :=
  ⟨"stock", [⟨[("value", PyObj.dict [("$PARAMETER", PyObj.str c7urn2)])]⟩]⟩

def c7cp2 : CompiledParams := ⟨[c7urn2],
  [("stock", [("expect_column_values_to_be_unique", [("sku", [("result", [c7urn2])])])])]⟩

/-- C8 witness: a context with one empty config document. -/
def c8cfg : RuleSet := ⟨"assets_a", []⟩

def c8ctx0 : DataContext := DataContext.connect [c8cfg]

/-- C8 witness: the state after the first successful compile of `c8ctx0`. -/
def c8ctx1 : DataContext := ⟨[c8cfg], [], true, emptyCompiled, []⟩

/-- C9: the malformed identifier of the concrete scenario. -/
def c9bad : String := "urn:great_expectations:validations:orders"

/-- C9: a valid column-scoped identifier compiled alongside it. -/
def c9good : String := "urn:great_expectations:validations:orders:expectations:expect_column_values_to_be_between:columns:amount:result:min_value"

def c9cfg : RuleSet := ⟨"orders", [⟨[
  ("a", PyObj.dict [("$PARAMETER", PyObj.str c9bad)]),
  ("b", PyObj.dict [("$PARAMETER", PyObj.str c9good)])]⟩]⟩

/-- C9: the index the code builds from `c9cfg`. -/
def c9cp : CompiledParams := ⟨[c9bad, c9good],
  [("orders", [("expect_column_values_to_be_between", [("amount", [("result", [c9good])])])])]⟩

/-- C10 witness: an already-compiled context with an empty index. -/
def c10ctx : DataContext := ⟨[], [], true, emptyCompiled, []⟩

/-- C10 witness: a validation result whose meta lacks `data_asset_name`. -/
def c10vrA : PyObj := PyObj.dict [("meta", PyObj.dict [("run_id", PyObj.str "20240101")])]

/-- C10 witness: a validation result naming an asset absent from the index. -/
def c10vrB : PyObj := PyObj.dict [
  ("meta", PyObj.dict [("data_asset_name", PyObj.str "nobody")]),
  ("results", PyObj.list [])]


/-! ### Association-list, count and leaf lemmas -/

theorem assocLookup_ensure_self (es : List (String × α)) (k : String) (v : α) :
    assocLookup (assocEnsure es k v) k = some ((assocLookup es k).getD v) := by
  induction es with
  | nil => simp [assocEnsure, assocLookup]
  | cons kv rest ih =>
    by_cases hk : kv.1 = k
    · simp [assocEnsure, assocLookup, hk]
    · simp [assocEnsure, assocLookup, hk, ih]

theorem assocLookup_ensure_ne (es : List (String × α)) (k : String) (v : α) (k' : String)
    (h : k' ≠ k) : assocLookup (assocEnsure es k v) k' = assocLookup es k' := by
  induction es with
  | nil => simp [assocEnsure, assocLookup, Ne.symm h]
  | cons kv rest ih =>
    by_cases hk : kv.1 = k
    · simp [assocEnsure, assocLookup, hk]
    · by_cases hk' : kv.1 = k' <;> simp [assocEnsure, assocLookup, hk, hk', ih, h]

theorem assocLookup_modify_self (es : List (String × α)) (k : String) (f : α → α) :
    assocLookup (assocModify es k f) k = (assocLookup es k).map f := by
  induction es with
  | nil => simp [assocModify, assocLookup]
  | cons kv rest ih =>
    by_cases hk : kv.1 = k
    · simp [assocModify, assocLookup, hk]
    · simp [assocModify, assocLookup, hk, ih]

theorem assocLookup_modify_ne (es : List (String × α)) (k : String) (f : α → α) (k' : String)
    (h : k' ≠ k) : assocLookup (assocModify es k f) k' = assocLookup es k' := by
  induction es with
  | nil => simp [assocModify, assocLookup]
  | cons kv rest ih =>
    by_cases hk : kv.1 = k
    · simp [assocModify, assocLookup, hk, Ne.symm h]
    · by_cases hk' : kv.1 = k' <;> simp [assocModify, assocLookup, hk, hk', ih, h]

theorem assocCount_ensure (cnt : α → Nat) (es : List (String × α)) (k : String) (v : α)
    (h : cnt v = 0) : assocCount cnt (assocEnsure es k v) = assocCount cnt es := by
  induction es with
  | nil => simp [assocEnsure, assocCount, h]
  | cons kv rest ih =>
    by_cases hk : kv.1 = k <;> simp [assocEnsure, assocCount, hk, ih]

theorem assocCount_modify_lookup (cnt : α → Nat) (es : List (String × α)) (k : String)
    (f : α → α) (a : α) (h : assocLookup es k = some a) :
    assocCount cnt (assocModify es k f) + cnt a = assocCount cnt es + cnt (f a) := by
  induction es with
  | nil => simp [assocLookup] at h
  | cons kv rest ih =>
    by_cases hk : kv.1 = k
    · simp [assocLookup, hk] at h
      subst h
      simp [assocModify, assocCount, hk]
      omega
    · simp [assocLookup, hk] at h
      have hrec := ih h
      simp [assocModify, assocCount, hk]
      omega

theorem assocCount_modify_of_cnt_eq (cnt : α → Nat) (es : List (String × α)) (k : String)
    (f : α → α) (h : ∀ a, cnt (f a) = cnt a) :
    assocCount cnt (assocModify es k f) = assocCount cnt es := by
  induction es with
  | nil => simp [assocModify, assocCount]
  | cons kv rest ih =>
    by_cases hk : kv.1 = k <;> simp [assocModify, assocCount, hk, ih, h]

theorem assocCount_lookup_le (cnt : α → Nat) (es : List (String × α)) (k : String) (a : α)
    (h : assocLookup es k = some a) : cnt a ≤ assocCount cnt es := by
  induction es with
  | nil => simp [assocLookup] at h
  | cons kv rest ih =>
    by_cases hk : kv.1 = k
    · simp [assocLookup, hk] at h
      subst h
      simp [assocCount]
    · simp [assocLookup, hk] at h
      have hrec := ih h
      simp [assocCount]
      omega

theorem assocLookup_some_mem (es : List (String × α)) (k : String) (v : α)
    (h : assocLookup es k = some v) : (k, v) ∈ es := by
  induction es with
  | nil => simp [assocLookup] at h
  | cons kv rest ih =>
    by_cases hk : kv.1 = k
    · simp [assocLookup, hk] at h
      subst h
      have hkv : (k, kv.2) = kv := by rw [← hk]
      rw [hkv]
      exact List.mem_cons_self _ _
    · simp [assocLookup, hk] at h
      exact List.mem_cons_of_mem _ (ih h)

theorem assocLookup_some_contains (es : List (String × α)) (k : String) (v : α)
    (h : assocLookup es k = some v) : (es.map Prod.fst).contains k = true := by
  have hm : k ∈ es.map Prod.fst :=
    List.mem_map.mpr ⟨(k, v), assocLookup_some_mem _ _ _ h, rfl⟩
  simpa using List.elem_eq_true_of_mem hm

-- listInsert lemmas
theorem mem_listInsert_iff (l : List String) (p q : String) :
    q ∈ listInsert l p ↔ q = p ∨ q ∈ l := by
  by_cases hc : p ∈ l
  · simp only [listInsert]
    rw [if_pos (by simpa using hc)]
    constructor
    · exact Or.inr
    · rintro (rfl | hq)
      · exact hc
      · exact hq
  · simp only [listInsert]
    rw [if_neg (by simpa using hc)]
    simp [or_comm]

theorem mem_listInsert_self (l : List String) (p : String) : p ∈ listInsert l p :=
  (mem_listInsert_iff l p p).mpr (Or.inl rfl)

theorem mem_listInsert_of_mem (l : List String) (p q : String) (h : q ∈ l) :
    q ∈ listInsert l p :=
  (mem_listInsert_iff l p q).mpr (Or.inr h)

theorem contains_iff_mem (l : List String) (q : String) : l.contains q = true ↔ q ∈ l := by
  simp

-- bsUpsert lemmas
theorem assocLookup_bsUpsert_self (bs : BranchSets) (b p : String) :
    assocLookup (bsUpsert bs b p) b = some (listInsert ((assocLookup bs b).getD []) p) := by
  induction bs with
  | nil => simp [bsUpsert, assocLookup, listInsert]
  | cons kv rest ih =>
    by_cases hk : kv.1 = b
    · simp [bsUpsert, assocLookup, hk]
    · simp [bsUpsert, assocLookup, hk, ih]

theorem assocLookup_bsUpsert_ne (bs : BranchSets) (b p b' : String) (h : b' ≠ b) :
    assocLookup (bsUpsert bs b p) b' = assocLookup bs b' := by
  induction bs with
  | nil => simp [bsUpsert, assocLookup, Ne.symm h]
  | cons kv rest ih =>
    by_cases hk : kv.1 = b
    · simp [bsUpsert, assocLookup, hk, Ne.symm h]
    · by_cases hk' : kv.1 = b' <;> simp [bsUpsert, assocLookup, hk, hk', ih, h]

theorem bsCount_upsert_ne (bs : BranchSets) (b p q : String) (h : q ≠ p) :
    bsCount q (bsUpsert bs b p) = bsCount q bs := by
  induction bs with
  | nil => simp [bsUpsert, bsCount, assocCount, mem_listInsert_iff, h]
  | cons kv rest ih =>
    by_cases hk : kv.1 = b
    · simp [bsUpsert, hk, bsCount, assocCount, mem_listInsert_iff, h]
    · simp only [bsUpsert, if_neg hk, bsCount, assocCount] at ih ⊢
      omega

theorem bsCount_upsert_self (bs : BranchSets) (b p : String) :
    bsCount p (bsUpsert bs b p) =
      bsCount p bs + (if ((assocLookup bs b).getD []).contains p then 0 else 1) := by
  induction bs with
  | nil => simp [bsUpsert, bsCount, assocCount, assocLookup, mem_listInsert_self]
  | cons kv rest ih =>
    by_cases hk : kv.1 = b
    · simp [bsUpsert, hk, bsCount, assocCount, assocLookup, mem_listInsert_self]
      by_cases hc : p ∈ kv.2 <;> simp [hc] <;> omega
    · simp only [bsUpsert, if_neg hk, bsCount, assocCount, assocLookup] at ih ⊢
      simp only [ih]
      omega

-- the ensure operations do not change any leaf, pointwise
theorem eeGet_ensure (ee : ExpEntry) (c : String) (c' b' : String) :
    eeGet (assocEnsure ee c []) c' b' = eeGet ee c' b' := by
  by_cases hc : c' = c
  · subst hc
    rw [eeGet, assocLookup_ensure_self]
    cases h : assocLookup ee c' <;> simp [eeGet, h]
  · rw [eeGet, assocLookup_ensure_ne _ _ _ _ hc, eeGet]

theorem edGet_ensure (ed : ExpDict) (e : String) (e' c' b' : String) :
    edGet (assocEnsure ed e []) e' c' b' = edGet ed e' c' b' := by
  by_cases he : e' = e
  · subst he
    rw [edGet, assocLookup_ensure_self]
    cases h : assocLookup ed e' <;> simp [edGet, eeGet, h, assocLookup]
  · rw [edGet, assocLookup_ensure_ne _ _ _ _ he, edGet]

theorem leafGetDa_daEnsure (da : DataAssets) (a : String) (a' e' c' b' : String) :
    leafGetDa (daEnsure da a) a' e' c' b' = leafGetDa da a' e' c' b' := by
  by_cases ha : a' = a
  · subst ha
    rw [leafGetDa, daEnsure, assocLookup_ensure_self]
    cases h : assocLookup da a' <;> simp [leafGetDa, edGet, eeGet, h, assocLookup]
  · rw [leafGetDa, daEnsure, assocLookup_ensure_ne _ _ _ _ ha, leafGetDa]

theorem leafGetDa_edEnsureAt (da : DataAssets) (a e : String) (a' e' c' b' : String) :
    leafGetDa (edEnsureAt da a e) a' e' c' b' = leafGetDa da a' e' c' b' := by
  by_cases ha : a' = a
  · subst ha
    rw [leafGetDa, edEnsureAt, assocLookup_modify_self]
    cases h : assocLookup da a' <;> simp [leafGetDa, h, edGet_ensure]
  · rw [leafGetDa, edEnsureAt, assocLookup_modify_ne _ _ _ _ ha, leafGetDa]

theorem eeGet_modify_ensure (ee : ExpEntry) (c : String) (c' b' : String) :
    eeGet (assocEnsure ee c []) c' b' = eeGet ee c' b' := eeGet_ensure ee c c' b'

theorem leafGetDa_colEnsureAt (da : DataAssets) (a e c : String) (a' e' c' b' : String) :
    leafGetDa (colEnsureAt da a e c) a' e' c' b' = leafGetDa da a' e' c' b' := by
  by_cases ha : a' = a
  · subst ha
    unfold leafGetDa colEnsureAt
    rw [assocLookup_modify_self]
    cases h : assocLookup da a' with
    | none => simp
    | some ed =>
      simp only [Option.map_some', Option.getD_some]
      by_cases he : e' = e
      · subst he
        unfold edGet
        rw [assocLookup_modify_self]
        cases h2 : assocLookup ed e' with
        | none => simp
        | some ee =>
          simp only [Option.map_some', Option.getD_some]
          exact eeGet_ensure ee c c' b'
      · unfold edGet
        rw [assocLookup_modify_ne _ _ _ _ he]
  · unfold leafGetDa colEnsureAt
    rw [assocLookup_modify_ne _ _ _ _ ha]

-- count preservation for the ensure operations
theorem daCount_daEnsure (q : String) (da : DataAssets) (a : String) :
    daCount q (daEnsure da a) = daCount q da := by
  unfold daCount daEnsure
  exact assocCount_ensure _ _ _ _ rfl

theorem daCount_edEnsureAt (q : String) (da : DataAssets) (a e : String) :
    daCount q (edEnsureAt da a e) = daCount q da := by
  unfold daCount edEnsureAt
  exact assocCount_modify_of_cnt_eq _ _ _ _ (fun ed => assocCount_ensure _ _ _ _ rfl)

theorem daCount_colEnsureAt (q : String) (da : DataAssets) (a e c : String) :
    daCount q (colEnsureAt da a e c) = daCount q da := by
  unfold daCount colEnsureAt
  exact assocCount_modify_of_cnt_eq _ _ _ _ (fun ed =>
    assocCount_modify_of_cnt_eq _ _ _ _ (fun ee => assocCount_ensure _ _ _ _ rfl))

-- target count for the leaf insertion
theorem daCount_leafInsertAt (q a e c b p : String) (da : DataAssets)
    (ed : ExpDict) (ee : ExpEntry) (bs : BranchSets)
    (h1 : assocLookup da a = some ed) (h2 : assocLookup ed e = some ee)
    (h3 : assocLookup ee c = some bs) :
    daCount q (leafInsertAt da a e c b p) =
      daCount q da +
        (if q = p then (if ((assocLookup bs b).getD []).contains p then 0 else 1) else 0) := by
  have hbs : bsCount q (bsUpsert bs b p) =
      bsCount q bs +
        (if q = p then (if ((assocLookup bs b).getD []).contains p then 0 else 1) else 0) := by
    by_cases hq : q = p
    · subst hq
      simp only [if_pos rfl]
      exact bsCount_upsert_self bs b q
    · simp only [if_neg hq]
      simp [bsCount_upsert_ne bs b p q hq]
  have hee : eeCount q (assocModify ee c (fun bs => bsUpsert bs b p)) + bsCount q bs
      = eeCount q ee + bsCount q (bsUpsert bs b p) :=
    assocCount_modify_lookup _ _ _ _ _ h3
  have hed : edCount q (assocModify ed e (fun ee => assocModify ee c (fun bs => bsUpsert bs b p)))
        + eeCount q ee
      = edCount q ed + eeCount q (assocModify ee c (fun bs => bsUpsert bs b p)) :=
    assocCount_modify_lookup _ _ _ _ _ h2
  have hda : daCount q (leafInsertAt da a e c b p) + edCount q ed
      = daCount q da
        + edCount q (assocModify ed e (fun ee => assocModify ee c (fun bs => bsUpsert bs b p))) :=
    assocCount_modify_lookup _ _ _ _ _ h1
  omega

-- leaf characterization for the insertion
theorem leafGetDa_leafInsertAt_target (a e c b p : String) (da : DataAssets)
    (ed : ExpDict) (ee : ExpEntry) (bs : BranchSets)
    (h1 : assocLookup da a = some ed) (h2 : assocLookup ed e = some ee)
    (h3 : assocLookup ee c = some bs) :
    leafGetDa (leafInsertAt da a e c b p) a e c b =
      listInsert ((assocLookup bs b).getD []) p := by
  unfold leafGetDa leafInsertAt
  rw [assocLookup_modify_self, h1]
  simp only [Option.map_some', Option.getD_some]
  unfold edGet
  rw [assocLookup_modify_self, h2]
  simp only [Option.map_some', Option.getD_some]
  unfold eeGet
  rw [assocLookup_modify_self, h3]
  simp only [Option.map_some', Option.getD_some]
  rw [assocLookup_bsUpsert_self]
  simp

theorem leafGetDa_leafInsertAt_other (a e c b p : String) (da : DataAssets)
    (a' e' c' b' : String) (hne : ¬(a' = a ∧ e' = e ∧ c' = c ∧ b' = b)) :
    leafGetDa (leafInsertAt da a e c b p) a' e' c' b' = leafGetDa da a' e' c' b' := by
  unfold leafGetDa leafInsertAt
  by_cases ha : a' = a
  · subst ha
    rw [assocLookup_modify_self]
    cases h : assocLookup da a' with
    | none => simp
    | some ed =>
      simp only [Option.map_some', Option.getD_some]
      unfold edGet
      by_cases he : e' = e
      · subst he
        rw [assocLookup_modify_self]
        cases h2 : assocLookup ed e' with
        | none => simp
        | some ee =>
          simp only [Option.map_some', Option.getD_some]
          unfold eeGet
          by_cases hc : c' = c
          · subst hc
            rw [assocLookup_modify_self]
            cases h3 : assocLookup ee c' with
            | none => simp
            | some bs =>
              simp only [Option.map_some', Option.getD_some]
              have hb : b' ≠ b := by
                intro hb
                exact hne ⟨rfl, rfl, rfl, hb⟩
              rw [assocLookup_bsUpsert_ne _ _ _ _ hb]
          · rw [assocLookup_modify_ne _ _ _ _ hc]
      · rw [assocLookup_modify_ne _ _ _ _ he]
  · rw [assocLookup_modify_ne _ _ _ _ ha]

-- membership in some leaf implies a positive count
theorem mem_leafGetDa_le (q : String) (da : DataAssets) (a e c b : String)
    (h : q ∈ leafGetDa da a e c b) : 1 ≤ daCount q da := by
  unfold leafGetDa at h
  cases h1 : assocLookup da a with
  | none => rw [h1] at h; simp [edGet, eeGet, assocLookup] at h
  | some ed =>
    rw [h1] at h
    simp only [Option.getD_some] at h
    unfold edGet at h
    cases h2 : assocLookup ed e with
    | none => rw [h2] at h; simp [eeGet, assocLookup] at h
    | some ee =>
      rw [h2] at h
      simp only [Option.getD_some] at h
      unfold eeGet at h
      cases h3 : assocLookup ee c with
      | none => rw [h3] at h; simp [assocLookup] at h
      | some bs =>
        rw [h3] at h
        simp only [Option.getD_some] at h
        cases h4 : assocLookup bs b with
        | none => rw [h4] at h; simp at h
        | some ids =>
          rw [h4] at h
          simp only [Option.getD_some] at h
          have hbs : 1 ≤ bsCount q bs := by
            have := assocCount_lookup_le (fun ids => if ids.contains q then 1 else 0) bs b ids h4
            unfold bsCount
            simp [h] at this ⊢
            omega
          have hee : bsCount q bs ≤ eeCount q ee := assocCount_lookup_le _ _ _ _ h3
          have hed : eeCount q ee ≤ edCount q ed := assocCount_lookup_le _ _ _ _ h2
          have hda : edCount q ed ≤ daCount q da := assocCount_lookup_le _ _ _ _ h1
          omega

theorem get?_none_mono (l : List α) (m n : Nat) (h : l.get? m = Option.none) (hmn : m ≤ n) :
    l.get? n = Option.none := by
  rw [List.get?_eq_none] at h ⊢
  omega

theorem CompileInv_empty : CompileInv emptyCompiled := by
  intro q
  constructor
  · simp [emptyCompiled, daCount, assocCount]
  · intro h
    simp [emptyCompiled] at h

theorem CompileInv_raw_insert (cp : CompiledParams) (p : String) (hInv : CompileInv cp)
    (hwf : wfColumns p = false) (da' : DataAssets)
    (hcount : ∀ q, daCount q da' = daCount q cp.data_assets)
    (hleaf : ∀ q a e c b, q ∈ leafGetDa cp.data_assets a e c b → q ∈ leafGetDa da' a e c b) :
    CompileInv ⟨listInsert cp.raw p, da'⟩ := by
  intro q
  obtain ⟨hc, hm⟩ := hInv q
  constructor
  · rw [hcount q, hc]
    by_cases hq : q = p
    · subst hq
      simp [mem_listInsert_iff, hwf]
    · simp [mem_listInsert_iff, hq]
  · intro hin hwfq
    have hq : q ≠ p := by
      intro he
      subst he
      rw [hwfq] at hwf
      exact Bool.noConfusion hwf
    have hraw : q ∈ cp.raw := by
      rcases (mem_listInsert_iff _ _ _).mp hin with h1 | h1
      · exact absurd h1 hq
      · exact h1
    exact hleaf q _ _ _ _ (hm hraw hwfq)

theorem CompileInv_place (cp : CompiledParams) (p a e c b8 : String)
    (hInv : CompileInv cp) (hwf : wfColumns p = true)
    (h3 : partAt p 3 = a) (h5 : partAt p 5 = e) (h7 : partAt p 7 = c) (h8 : partAt p 8 = b8) :
    CompileInv ⟨listInsert cp.raw p,
      leafInsertAt (colEnsureAt (edEnsureAt (daEnsure cp.data_assets a) a e) a e c) a e c b8 p⟩ := by
  have da0 : DataAssets := cp.data_assets
  -- names for the intermediate structures
  set ed1 : ExpDict := (assocLookup cp.data_assets a).getD [] with hed1def
  set ed2 : ExpDict := assocEnsure ed1 e [] with hed2def
  set ee1 : ExpEntry := (assocLookup ed1 e).getD [] with hee1def
  set ed3 : ExpDict := assocModify ed2 e (fun ee => assocEnsure ee c []) with hed3def
  set ee3 : ExpEntry := assocEnsure ee1 c [] with hee3def
  set bs3 : BranchSets := (assocLookup ee1 c).getD [] with hbs3def
  set da1 : DataAssets := daEnsure cp.data_assets a with hda1def
  set da2 : DataAssets := edEnsureAt da1 a e with hda2def
  set da3 : DataAssets := colEnsureAt da2 a e c with hda3def
  -- lookups along the ensured path
  have l1 : assocLookup da1 a = some ed1 := by
    rw [hda1def, daEnsure, assocLookup_ensure_self]
  have l2 : assocLookup da2 a = some ed2 := by
    rw [hda2def, edEnsureAt, assocLookup_modify_self, l1]
    rfl
  have l2e : assocLookup ed2 e = some ee1 := by
    rw [hed2def, assocLookup_ensure_self]
  have l3 : assocLookup da3 a = some ed3 := by
    rw [hda3def, colEnsureAt, assocLookup_modify_self, l2]
    rfl
  have l3e : assocLookup ed3 e = some ee3 := by
    rw [hed3def, assocLookup_modify_self, l2e]
    rfl
  have l3c : assocLookup ee3 c = some bs3 := by
    rw [hee3def, assocLookup_ensure_self]
  -- the prefix operations change neither counts nor leaves
  have hcnt3 : ∀ q, daCount q da3 = daCount q cp.data_assets := by
    intro q
    rw [hda3def, hda2def, hda1def, daCount_colEnsureAt, daCount_edEnsureAt, daCount_daEnsure]
  have hleaf3 : ∀ a' e' c' b', leafGetDa da3 a' e' c' b' = leafGetDa cp.data_assets a' e' c' b' := by
    intro a' e' c' b'
    rw [hda3def, hda2def, hda1def, leafGetDa_colEnsureAt, leafGetDa_edEnsureAt, leafGetDa_daEnsure]
  have hlg3 : leafGetDa da3 a e c b8 = (assocLookup bs3 b8).getD [] := by
    unfold leafGetDa edGet eeGet
    rw [l3]
    simp only [Option.getD_some]
    rw [l3e]
    simp only [Option.getD_some]
    rw [l3c]
    rfl
  -- the target count after insertion
  have hcount4 : ∀ q, daCount q (leafInsertAt da3 a e c b8 p) =
      daCount q da3 +
        (if q = p then (if ((assocLookup bs3 b8).getD []).contains p then 0 else 1) else 0) :=
    fun q => daCount_leafInsertAt q a e c b8 p da3 ed3 ee3 bs3 l3 l3e l3c
  intro q
  obtain ⟨hc, _⟩ := hInv q
  constructor
  · -- the count clause
    rw [hcount4 q, hcnt3 q, hc]
    by_cases hq : q = p
    · subst hq
      simp only [if_pos rfl]
      by_cases hp : q ∈ cp.raw
      · -- q already processed: it sits in its own leaf, so the insert is a no-op
        have hmem := (hInv q).2 hp hwf
        rw [h3, h5, h7, h8, ← hleaf3, hlg3] at hmem
        simp [hp, hwf, hmem, mem_listInsert_self]
      · -- fresh: the leaf cannot contain it, count goes from zero to one
        have hnm : q ∉ (assocLookup bs3 b8).getD [] := by
          intro hmem
          rw [← hlg3] at hmem
          have hle := mem_leafGetDa_le q da3 a e c b8 hmem
          rw [hcnt3 q, hc] at hle
          simp [hp] at hle
        simp [hp, hwf, hnm, mem_listInsert_self]
    · simp only [if_neg hq]
      simp [mem_listInsert_iff, hq]
  · -- the leaf clause
    intro hin hwfq
    by_cases hq : q = p
    · subst hq
      rw [h3, h5, h7, h8]
      show q ∈ leafGetDa (leafInsertAt da3 a e c b8 q) a e c b8
      rw [leafGetDa_leafInsertAt_target a e c b8 q da3 ed3 ee3 bs3 l3 l3e l3c]
      exact mem_listInsert_self _ _
    · have hraw : q ∈ cp.raw := by
        rcases (mem_listInsert_iff _ _ _).mp hin with h1 | h1
        · exact absurd h1 hq
        · exact h1
      have hmem := (hInv q).2 hraw hwfq
      show q ∈ leafGetDa (leafInsertAt da3 a e c b8 p) (partAt q 3) (partAt q 5) (partAt q 7) (partAt q 8)
      by_cases hpath : partAt q 3 = a ∧ partAt q 5 = e ∧ partAt q 7 = c ∧ partAt q 8 = b8
      · obtain ⟨p3, p5, p7, p8⟩ := hpath
        rw [p3, p5, p7, p8]
        rw [leafGetDa_leafInsertAt_target a e c b8 p da3 ed3 ee3 bs3 l3 l3e l3c]
        apply mem_listInsert_of_mem
        rw [← hlg3, hleaf3]
        rw [p3, p5, p7, p8] at hmem
        exact hmem
      · rw [leafGetDa_leafInsertAt_other a e c b8 p da3 _ _ _ _ hpath, hleaf3]
        exact hmem

theorem wfColumns_false_of_get6_none (p : String)
    (h : (splitColon p).get? 6 = Option.none) : wfColumns p = false := by
  unfold wfColumns
  rw [h]
  rfl

theorem wfColumns_false_of_get8_none (p : String)
    (h : (splitColon p).get? 8 = Option.none) : wfColumns p = false := by
  unfold wfColumns
  rw [h]
  simp

theorem wfColumns_false_of_b6_ne (p b : String)
    (h6 : (splitColon p).get? 6 = some b) (hb : b ≠ "columns") : wfColumns p = false := by
  unfold wfColumns
  rw [h6]
  simp [hb]

theorem wfColumns_true_of (p b8 : String)
    (h6 : (splitColon p).get? 6 = some "columns") (h8 : (splitColon p).get? 8 = some b8) :
    wfColumns p = true := by
  unfold wfColumns
  rw [h6, h8]
  simp

theorem compileParam_inv (known : List String) (cp : CompiledParams) (ws : List Warn)
    (p : String) (cp' : CompiledParams) (ws' : List Warn)
    (hInv : CompileInv cp) (h : compileParam known (cp, ws) p = Except.ok (cp', ws')) :
    CompileInv cp' := by
  simp only [compileParam] at h
  cases h3 : (splitColon p).get? 3 with
  | none =>
    simp only [h3, Except.ok.injEq, Prod.mk.injEq] at h
    obtain ⟨hcp, _⟩ := h
    subst hcp
    have hwf : wfColumns p = false :=
      wfColumns_false_of_get6_none p (get?_none_mono _ 3 6 h3 (by omega))
    exact CompileInv_raw_insert cp p hInv hwf _ (fun q => rfl) (fun q a e c b hm => hm)
  | some a =>
    cases h5 : (splitColon p).get? 5 with
    | none =>
      simp only [h3, h5, Except.ok.injEq, Prod.mk.injEq] at h
      obtain ⟨hcp, _⟩ := h
      subst hcp
      have hwf : wfColumns p = false :=
        wfColumns_false_of_get6_none p (get?_none_mono _ 5 6 h5 (by omega))
      exact CompileInv_raw_insert cp p hInv hwf _
        (fun q => daCount_daEnsure q cp.data_assets a)
        (fun q a' e' c' b' hm => by rw [leafGetDa_daEnsure]; exact hm)
    | some e =>
      cases h6 : (splitColon p).get? 6 with
      | none =>
        simp only [h3, h5, h6, Except.ok.injEq, Prod.mk.injEq] at h
        obtain ⟨hcp, _⟩ := h
        subst hcp
        have hwf : wfColumns p = false := wfColumns_false_of_get6_none p h6
        exact CompileInv_raw_insert cp p hInv hwf _
          (fun q => by rw [daCount_edEnsureAt, daCount_daEnsure])
          (fun q a' e' c' b' hm => by rw [leafGetDa_edEnsureAt, leafGetDa_daEnsure]; exact hm)
      | some b =>
        simp only [h3, h5, h6] at h
        by_cases hb1 : b = "results" ∨ b = "details"
        · rw [if_pos hb1] at h
          exact absurd h (by simp)
        · rw [if_neg hb1] at h
          by_cases hb2 : b = "columns"
          · rw [if_pos hb2] at h
            subst hb2
            cases h7 : (splitColon p).get? 7 with
            | none =>
              simp only [h7, Except.ok.injEq, Prod.mk.injEq] at h
              obtain ⟨hcp, _⟩ := h
              subst hcp
              have hwf : wfColumns p = false :=
                wfColumns_false_of_get8_none p (get?_none_mono _ 7 8 h7 (by omega))
              exact CompileInv_raw_insert cp p hInv hwf _
                (fun q => by rw [daCount_edEnsureAt, daCount_daEnsure])
                (fun q a' e' c' b' hm => by
                  rw [leafGetDa_edEnsureAt, leafGetDa_daEnsure]; exact hm)
            | some c =>
              cases h8 : (splitColon p).get? 8 with
              | none =>
                simp only [h7, h8, Except.ok.injEq, Prod.mk.injEq] at h
                obtain ⟨hcp, _⟩ := h
                subst hcp
                have hwf : wfColumns p = false := wfColumns_false_of_get8_none p h8
                exact CompileInv_raw_insert cp p hInv hwf _
                  (fun q => by rw [daCount_colEnsureAt, daCount_edEnsureAt, daCount_daEnsure])
                  (fun q a' e' c' b' hm => by
                    rw [leafGetDa_colEnsureAt, leafGetDa_edEnsureAt, leafGetDa_daEnsure]; exact hm)
              | some b8 =>
                simp only [h7, h8, Except.ok.injEq, Prod.mk.injEq] at h
                obtain ⟨hcp, _⟩ := h
                subst hcp
                have hwf : wfColumns p = true := wfColumns_true_of p b8 h6 h8
                exact CompileInv_place cp p a e c b8 hInv hwf
                  (by unfold partAt; rw [h3]; rfl) (by unfold partAt; rw [h5]; rfl)
                  (by unfold partAt; rw [h7]; rfl) (by unfold partAt; rw [h8]; rfl)
          · rw [if_neg hb2] at h
            simp only [Except.ok.injEq, Prod.mk.injEq] at h
            obtain ⟨hcp, _⟩ := h
            subst hcp
            have hwf : wfColumns p = false := wfColumns_false_of_b6_ne p b h6 hb2
            exact CompileInv_raw_insert cp p hInv hwf _
              (fun q => by rw [daCount_edEnsureAt, daCount_daEnsure])
              (fun q a' e' c' b' hm => by
                rw [leafGetDa_edEnsureAt, leafGetDa_daEnsure]; exact hm)

theorem foldlM_inv {σ β : Type} {P : σ → Prop} (step : σ → β → Except PyErr σ)
    (hstep : ∀ s x s', P s → step s x = Except.ok s' → P s') :
    ∀ (l : List β) (s s' : σ), P s → l.foldlM step s = Except.ok s' → P s' := by
  intro l
  induction l with
  | nil =>
    intro s s' h hf
    simp only [List.foldlM] at hf
    cases hf
    exact h
  | cons x xs ih =>
    intro s s' h hf
    simp only [List.foldlM] at hf
    cases hsx : step s x with
    | error e =>
      rw [hsx] at hf
      exact absurd hf (by simp [Bind.bind, Except.bind])
    | ok s1 =>
      rw [hsx] at hf
      have hf' : xs.foldlM step s1 = Except.ok s' := by
        simpa [Bind.bind, Except.bind] using hf
      exact ih s1 s' (hstep s x s1 h hsx) hf'

theorem compileKwarg_inv (known : List String) (st st' : CompiledParams × List Warn)
    (v : PyObj) (hInv : CompileInv st.1)
    (h : compileKwarg known st v = Except.ok st') : CompileInv st'.1 := by
  cases v with
  | dict es =>
    simp only [compileKwarg] at h
    by_cases hk : (es.map Prod.fst).contains "$PARAMETER"
    · rw [if_pos hk] at h
      cases hl : assocLookup es "$PARAMETER" with
      | none =>
        rw [hl] at h
        cases h
        exact hInv
      | some inner =>
        rw [hl] at h
        cases inner with
        | str s =>
          have h' : (if strStartsWith s urnStart then compileParam known st s
              else Except.ok st) = Except.ok st' := h
          by_cases hpre : strStartsWith s urnStart
          · rw [if_pos hpre] at h'
            obtain ⟨cp, ws⟩ := st
            obtain ⟨cp', ws'⟩ := st'
            exact compileParam_inv known cp ws s cp' ws' hInv h'
          · rw [if_neg hpre] at h'
            cases h'
            exact hInv
        | none => cases h
        | bool b => cases h
        | int n => cases h
        | list xs => cases h
        | dict es2 => cases h
        | set xs => cases h
    · rw [if_neg hk] at h
      cases h
      exact hInv
  | none => cases h; exact hInv
  | bool b => cases h; exact hInv
  | int n => cases h; exact hInv
  | str s => cases h; exact hInv
  | list xs => cases h; exact hInv
  | set xs => cases h; exact hInv

theorem compileExpectation_inv (known : List String) (st st' : CompiledParams × List Warn)
    (exp : Expectation) (hInv : CompileInv st.1)
    (h : compileExpectation known st exp = Except.ok st') : CompileInv st'.1 :=
  foldlM_inv _ (fun s kv s' hs hstep => compileKwarg_inv known s s' kv.2 hs hstep)
    exp.kwargs st st' hInv h

theorem compileConfig_inv (known : List String) (st st' : CompiledParams × List Warn)
    (rs : RuleSet) (hInv : CompileInv st.1)
    (h : compileConfig known st rs = Except.ok st') : CompileInv st'.1 :=
  foldlM_inv _ (fun s ex s' hs hstep => compileExpectation_inv known s s' ex hs hstep)
    rs.expectations st st' hInv h

theorem compileAll_inv (configs : List RuleSet) (cp : CompiledParams) (ws : List Warn)
    (h : compileAll configs = Except.ok (cp, ws)) : CompileInv cp :=
  foldlM_inv _ (fun s rs s' hs hstep =>
      compileConfig_inv (configs.map (fun rs => rs.name)) s s' rs hs hstep)
    configs (emptyCompiled, []) (cp, ws) CompileInv_empty h


theorem assocLookup_assocSet_self (es : List (String × α)) (k : String) (v : α) :
    assocLookup (assocSet es k v) k = some v := by
  induction es with
  | nil => simp [assocSet, assocLookup]
  | cons kv rest ih =>
    by_cases hk : kv.1 = k
    · simp [assocSet, assocLookup, hk]
    · simp [assocSet, assocLookup, hk, ih]

theorem okBind {ε α β : Type} (a : α) (f : α → Except ε β) :
    (Except.ok a >>= f) = f a := rfl

theorem pureBind {ε α β : Type} (a : α) (f : α → Except ε β) :
    ((pure a : Except ε α) >>= f) = f a := rfl


theorem compile_keeps_configs (ctx ctx1 : DataContext) (h : ctx.compile = Except.ok ctx1) :
    ctx1.configs = ctx.configs := by
  unfold DataContext.compile at h
  cases hca : compileAll ctx.configs with
  | error e => rw [hca] at h; cases h
  | ok pr =>
    obtain ⟨cp, ws⟩ := pr
    rw [hca] at h
    injection h with h1
    subst h1
    rfl


/-! ### Claim theorems -/

/-- C1: the spec scenario claims that after registering asset `orders` with an
entry of kind `expect_column_values_to_be_between`, empty kwargs and result
`{min_value: 5}`, against an index built from the identifier
`urn:...:expect_column_values_to_be_between:result:min_value`, that identifier
is stored mapped to 5.  The code instead raises: the compiler never places the
identifier in a leaf (it compares segment 6 against the plural "results"), and
the matcher's non-column loop iterates the asset dict without `.items()`,
raising `ValueError` on the first matching entry, so nothing is stored. -/
theorem C1_concrete_scenario_raises_valueerror :
    c1ctx.register_validation_results "run_1" c1vr =
      Except.error (PyErr.valueError "values to unpack") := rfl

/-- C2: the spec claims every prefixed identifier with enough segments is
placed under `by_asset[asset][kind]` in the `result` or `details` leaf set of
its parsed branch.  The code contradicts this for every non-column identifier:
a `result` identifier is logged as unrecognized and put in no leaf set (the
compiled index keeps an empty rule-kind entry, occurrence count zero), and a
`details` identifier aborts the whole compilation with `TypeError` because
line 191 replaces the rule-kind dict with an empty set that line 192 then
subscripts. -/
theorem C2_noncolumn_result_details_mishandled :
    compileAll [c2cfg] = Except.ok (c2cp, [Warn.invalidStructure c2urn]) ∧
    daCount c2urn c2cp.data_assets = 0 ∧
    compileAll [c2cfgDetails] =
      Except.error (PyErr.typeError "set object is not subscriptable") :=
  ⟨rfl, rfl, rfl⟩

/-- C3: the spec claims the put/get/bind round trip: after storing a value for
an identifier, `get_validation_param` returns it and
`bind_evaluation_parameters(run_id)` reflects it.  In the code the value is
stored under the identifier (third conjunct), but `get_validation_param`
subscripts the literal string "key" and returns None, and
`bind_evaluation_parameters` looks the run_id up in the identifier-keyed dict
and returns the empty dict.  Only the empty-mapping clause for a run that
never registered anything holds (first conjunct). -/
theorem C3_param_store_round_trip_broken :
    (DataContext.connect []).bind_evaluation_parameters "run_1" (PyObj.dict []) =
        PyObj.dict [] ∧
    assocLookup c3ctx.validation_params "parameter_a" = some (PyObj.int 7) ∧
    c3ctx.get_validation_param "parameter_a" = PyObj.none ∧
    c3ctx.bind_evaluation_parameters "run_1" (PyObj.dict []) = PyObj.dict [] :=
  ⟨rfl, rfl, rfl, rfl⟩

/-- C4: two calls to `register_validation_results` differing only in `run_id`
produce identical outcomes (states and errors alike), because the code never
consults `run_id`; and a second store of the same identifier silently
overwrites the first value. -/
theorem C4_run_id_never_influences_params :
    (∀ (ctx : DataContext) (r₁ r₂ : String) (vr : PyObj),
      ctx.register_validation_results r₁ vr = ctx.register_validation_results r₂ vr) ∧
    (∀ (ctx : DataContext) (k : String) (v₁ v₂ : PyObj),
      assocLookup
        ((ctx.store_validation_param k v₁ |>.store_validation_param k v₂).validation_params)
        k = some v₂) :=
  ⟨fun _ _ _ _ => rfl, fun ctx k v₁ v₂ => assocLookup_assocSet_self _ _ _⟩

/-- C5: the spec claims an entry matching both a column-scoped identifier
(whose column is in the kwargs) and a non-column identifier for the same rule
kind stores both values.  The code instead raises `KeyError "columns"`: line
88 looks up the literal key "columns" at the asset level of the index, a key
the compiler never creates there, so nothing is stored. -/
theorem C5_column_and_noncolumn_match_raises_keyerror :
    c5ctx.register_validation_results "run_1" c5vr =
      Except.error (PyErr.keyError "columns") := rfl

/-- C6: the spec claims a result matching an indexed non-column identifier
stores the value found under the identifier's leaf key in the entry's flat
result/details map.  The code cannot even build such an index: compiling a
non-column `details` identifier replaces the rule-kind dict with an empty set
and subscripts it (`TypeError`), so registration, which compiles lazily,
aborts before storing anything.  (Had the loop been reached, line 110 would
also store the whole details map rather than the leaf value.) -/
theorem C6_details_identifier_aborts_compile :
    c6ctx.register_validation_results "run_1" c6vr =
      Except.error (PyErr.typeError "set object is not subscriptable") ∧
    compileAll [c6cfg] =
      Except.error (PyErr.typeError "set object is not subscriptable") :=
  ⟨rfl, rfl⟩

/-- C7 counterexample: the claimed invariant says every identifier in `raw`
appears in exactly one leaf set, for any input including malformed
identifiers.  Compiling the too-short identifier
`urn:great_expectations:validations:orders` puts it in `raw` while its
occurrence count over all leaf sets is zero. -/
theorem C7_counterexample_malformed_in_raw_no_leaf :
    compileAll [c7cfg] = Except.ok (c7cp, [Warn.notEnoughParts c7urn]) ∧
    c7urn ∈ c7cp.raw ∧
    daCount c7urn c7cp.data_assets = 0 :=
  ⟨rfl, List.mem_singleton.mpr rfl, rfl⟩

/-- C7 amended: after every successful compilation, an identifier in `raw`
whose branch keyword (segment 6) is "columns" and which has at least nine
segments occurs in exactly one leaf set, the one reachable by its own parsed
segments; every other identifier in `raw` (malformed ones and non-column
result/details ones) occurs in no leaf set. -/
theorem C7_amended_leaf_invariant :
    ∀ (configs : List RuleSet) (cp : CompiledParams) (ws : List Warn),
    compileAll configs = Except.ok (cp, ws) →
    ∀ p ∈ cp.raw,
      (wfColumns p = true →
        daCount p cp.data_assets = 1 ∧
          p ∈ leafGet cp (partAt p 3) (partAt p 5) (partAt p 7) (partAt p 8)) ∧
      (wfColumns p = false → daCount p cp.data_assets = 0) := by
  intro configs cp ws h p hp
  have hInv := compileAll_inv configs cp ws h
  obtain ⟨hc, hm⟩ := hInv p
  constructor
  · intro hwf
    refine ⟨?_, hm hp hwf⟩
    rw [hc]
    simp [hp, hwf]
  · intro hwf
    rw [hc]
    simp [hwf]

/-- C7 witness: the amended invariant evaluated on a compile of one
well-formed column-scoped identifier. -/
theorem C7_amended_leaf_invariant_witness :
    (wfColumns c7urn2 = true →
      daCount c7urn2 c7cp2.data_assets = 1 ∧
        c7urn2 ∈ leafGet c7cp2 (partAt c7urn2 3) (partAt c7urn2 5)
          (partAt c7urn2 7) (partAt c7urn2 8)) ∧
    (wfColumns c7urn2 = false → daCount c7urn2 c7cp2.data_assets = 0) :=
  C7_amended_leaf_invariant [c7cfg2] c7cp2 [] rfl c7urn2 (List.mem_singleton.mpr rfl)

/-- C8: compilation is a full rebuild and idempotent: a successful compile
followed by a second compile yields the same compiled parameter index, equal
by value. -/
theorem C8_compile_idempotent (ctx ctx1 : DataContext)
    (h : ctx.compile = Except.ok ctx1) :
    ∃ ctx2, ctx1.compile = Except.ok ctx2 ∧
      ctx2.compiled_parameters = ctx1.compiled_parameters := by
  have hcfg := compile_keeps_configs ctx ctx1 h
  unfold DataContext.compile at h ⊢
  rw [hcfg]
  cases hca : compileAll ctx.configs with
  | error e => rw [hca] at h; cases h
  | ok pr =>
    obtain ⟨cp, ws⟩ := pr
    rw [hca] at h
    injection h with h1
    refine ⟨_, rfl, ?_⟩
    rw [← h1]

/-- C8 witness: idempotence evaluated on a context with one empty config. -/
theorem C8_compile_idempotent_witness :
    ∃ ctx2, c8ctx1.compile = Except.ok ctx2 ∧
      ctx2.compiled_parameters = c8ctx1.compiled_parameters :=
  C8_compile_idempotent c8ctx0 c8ctx1 rfl

/-- C9 counterexample: the spec scenario claims a compile containing the
too-short identifier alongside one valid identifier yields an index containing
only the valid one.  The raw set of the compiled index contains the malformed
identifier as well. -/
theorem C9_counterexample_malformed_kept_in_raw :
    compileAll [c9cfg] = Except.ok (c9cp, [Warn.notEnoughParts c9bad]) ∧
    c9bad ∈ c9cp.raw ∧
    c9bad ≠ c9good :=
  ⟨rfl, List.mem_cons_self _ _, by decide⟩

/-- C9 amended: the malformed identifier is rejected with a warning and does
not abort compilation; the leaf sets contain only the valid identifier and the
malformed one occurs in no leaf, but `raw` records both identifiers (the code
adds to `raw` before validating), and an empty asset entry is created for the
malformed identifier's asset segment. -/
theorem C9_amended_malformed_warned_only_leaves_clean :
    compileAll [c9cfg] = Except.ok (c9cp, [Warn.notEnoughParts c9bad]) ∧
    c9good ∈ leafGet c9cp "orders" "expect_column_values_to_be_between" "amount" "result" ∧
    daCount c9bad c9cp.data_assets = 0 ∧
    c9cp.raw = [c9bad, c9good] :=
  ⟨rfl, List.mem_singleton.mpr rfl, rfl, rfl⟩

/-- C10: `register_validation_results` on an already-compiled context is an
early no-op in both boundary cases: a result whose meta lacks
`data_asset_name` only appends the warning and stores nothing, and a result
naming an asset absent from the compiled index returns the context unchanged
without error. -/
theorem C10_register_early_noops (ctx : DataContext) (rid : String) (vr meta : PyObj)
    (hc : ctx.compiled = true) (hm : vr.getItem "meta" = Except.ok meta) :
    (meta.containsKey "data_asset_name" = Except.ok false →
      ctx.register_validation_results rid vr =
        Except.ok { ctx with log := ctx.log ++ [Warn.noDataAssetName] }) ∧
    (∀ name, meta.getItem "data_asset_name" = Except.ok (PyObj.str name) →
      (ctx.compiled_parameters.data_assets.map Prod.fst).contains name = false →
      ctx.register_validation_results rid vr = Except.ok ctx) := by
  obtain ⟨cfgs, vps, cmp, cpms, lg⟩ := ctx
  have hc' : cmp = true := hc
  subst hc'
  constructor
  · intro hnone
    simp only [DataContext.register_validation_results, pureBind, okBind, hm, hnone,
      eq_self_iff_true, if_true]
    rfl
  · intro name hget habs
    have hdict : ∃ es, meta = PyObj.dict es := by
      cases meta with
      | dict es => exact ⟨es, rfl⟩
      | none => cases hget
      | bool b => cases hget
      | int n => cases hget
      | str s => cases hget
      | list xs => cases hget
      | set xs => cases hget
    obtain ⟨es, rfl⟩ := hdict
    have hlook : assocLookup es "data_asset_name" = some (PyObj.str name) := by
      have h' : (match assocLookup es "data_asset_name" with
        | some v => Except.ok v
        | Option.none => Except.error (PyErr.keyError "data_asset_name")) =
          Except.ok (PyObj.str name) := hget
      cases hl : assocLookup es "data_asset_name" with
      | none => rw [hl] at h'; cases h'
      | some v => rw [hl] at h'; cases h'; rfl
    have hcontains : (PyObj.dict es).containsKey "data_asset_name" = Except.ok true := by
      simp only [PyObj.containsKey]
      rw [assocLookup_some_contains es "data_asset_name" _ hlook]
    simp only [DataContext.register_validation_results, pureBind, okBind, hm, hcontains,
      hget, habs, eq_self_iff_true, if_true]
    rfl

/-- C10 witness: both early no-ops evaluated on concrete inputs. -/
theorem C10_register_early_noops_witness :
    c10ctx.register_validation_results "run_a" c10vrA =
      Except.ok { c10ctx with log := c10ctx.log ++ [Warn.noDataAssetName] } ∧
    c10ctx.register_validation_results "run_b" c10vrB = Except.ok c10ctx :=
  ⟨(C10_register_early_noops c10ctx "run_a" c10vrA
      (PyObj.dict [("run_id", PyObj.str "20240101")]) rfl rfl).1 rfl,
   (C10_register_early_noops c10ctx "run_b" c10vrB
      (PyObj.dict [("data_asset_name", PyObj.str "nobody")]) rfl rfl).2 "nobody" rfl rfl⟩
